import Mathlib

/-!
Shallow embedding of the taskify session-credential core:
`taskify_common/src/auth/token_helper.py` (class `TokenHelper`) and the
distributed-lock part of `taskify_redis/src/redis_helper.py` (class
`RedisHelper`).

Modelling conventions:
* Time is an integer count of seconds (PyJWT serialises `exp`/`iat`
  datetimes to integer POSIX seconds via `utctimetuple`, and all TTL
  arithmetic in the source is in whole seconds).
* A JWT payload is a Python dict from string claim names to values; we
  model values with `JVal` (strings and integers, the only value shapes
  the core reads or writes) and dicts as association lists with
  first-match lookup and replace-or-append insertion, which is exactly
  Python dict semantics for dicts with unique keys.
* An encoded token (`jwt.encode(payload, key, algorithm)`) is modelled by
  `Tok.signed payload key alg`; structurally invalid strings by
  `Tok.malformed`.  HS256 encoding is deterministic and injective on the
  payload, so token-string equality is `Tok` equality.
* The Redis store is a list of entries with absolute expiry times
  (`SET key v EX ttl` at time `now` creates an entry that exists for all
  query times `t` with `t < now + ttl`).  Keys are modelled by the
  inductive `RKey`; the three key namespaces of the source
  (`refresh_token:...`, `token_blacklist:...`, `lock:...`) have distinct
  literal prefixes and injective payloads, so the flat string namespace
  of Redis is faithfully represented by the inductive, and `RKey.render`
  reproduces the exact key strings.
-/

namespace Taskify

/-- A JSON-ish claim value: the core only ever reads and writes string and
integer claim values. -/
inductive JVal where
  | s (v : String)
  | i (v : Int)
deriving DecidableEq, Repr

/-- Python `str(v)` / f-string interpolation of a claim value. -/
def JVal.pyStr : JVal → String
  | JVal.s v => v
  | JVal.i v => toString v

/-- Python truthiness of a claim value (`if not user_id: ...`):
the empty string and the integer 0 are falsy. -/
def JVal.truthy : JVal → Bool
  | JVal.s v => decide (v ≠ "")
  | JVal.i v => decide (v ≠ 0)

/-- A Python dict with string keys, as an association list with unique
keys; lookup is first-match. -/
def Dict : Type := List (String × JVal)

/-- `d.get(k)` on a Python dict. -/
def dictGet : List (String × JVal) → String → Option JVal
  | [], _ => none
  | p :: rest, k => if p.1 = k then some p.2 else dictGet rest k

/-- `d[k] = v` on a Python dict: replace the (unique) existing binding in
place, or append a new one. -/
def dictInsert : List (String × JVal) → String → JVal → List (String × JVal)
  | [], k, v => [(k, v)]
  | p :: rest, k, v => if p.1 = k then (k, v) :: rest else p :: dictInsert rest k v

/-- `d.update(e)` on Python dicts: insert every binding of `e` into `d`
in order.  Bindings of `e` overwrite colliding bindings of `d`. -/
def dictUpdate : List (String × JVal) → List (String × JVal) → List (String × JVal)
  | d, [] => d
  | d, p :: rest => dictUpdate (dictInsert d p.1 p.2) rest

/-- An encoded JWT string.  `signed payload key alg` is the string
`jwt.encode(payload, key, algorithm=alg)`; `malformed s` is a string that
is not a structurally valid JWT. -/
inductive Tok where
  | signed (payload : List (String × JVal)) (key : String) (alg : String)
  | malformed (s : String)
deriving DecidableEq, Repr

/-- The claim set carried by a token (empty for malformed strings). -/
def Tok.payloadOf : Tok → List (String × JVal)
  | Tok.signed payload _ _ => payload
  | Tok.malformed _ => []

/-- A concrete rendering of the encoded token string, standing in for the
opaque base64url JWT encoding.  The core only ever interpolates the token
string into the blacklist key. -/
def JVal.ser : JVal → String
  | JVal.s v => "s(" ++ v ++ ")"
  | JVal.i v => "i(" ++ toString v ++ ")"

def payloadSer : List (String × JVal) → String
  | [] => ""
  | p :: rest => p.1 ++ "=" ++ JVal.ser p.2 ++ ";" ++ payloadSer rest

def Tok.str : Tok → String
  | Tok.signed payload key alg => "jwt(" ++ payloadSer payload ++ "|" ++ key ++ "|" ++ alg ++ ")"
  | Tok.malformed s => s

/-- A Redis key used by the core.  The three namespaces of the source have
distinct literal string prefixes, so the flat Redis key space is
faithfully represented by this inductive; `RKey.render` gives the exact
key string written by the source. -/
inductive RKey where
  | refreshKey (subject : String)
  | blacklistKey (token : Tok)
  | lockKey (name : String)
deriving DecidableEq, Repr

/-- The exact key strings of the source:
`f"refresh_token:{user_id}"`, `f"token_blacklist:{token}"`,
`f"lock:{lock_name}"`. -/
def RKey.render : RKey → String
  | RKey.refreshKey subject => "refresh_token:" ++ subject
  | RKey.blacklistKey token => "token_blacklist:" ++ Tok.str token
  | RKey.lockKey name => "lock:" ++ name

/-- A value stored in Redis: either a raw string (blacklist sentinel `"1"`,
lock identifiers) or a raw token string (the refresh registry, written
with `serialize=False`). -/
inductive RVal where
  | vStr (s : String)
  | vTok (t : Tok)
deriving DecidableEq, Repr

/-- One Redis entry: key, value and absolute expiry time (`none` = the key
never expires). -/
structure Entry where
  key : RKey
  val : RVal
  expAt : Option Int
deriving DecidableEq, Repr

/-- The Redis store.  Newer entries shadow older entries with the same
key (lookup is first-match, deletion removes every binding). -/
abbrev Store : Type := List Entry

/-- Look up the (possibly expired) current entry for a key. -/
def Store.find : Store → RKey → Option Entry
  | [], _ => none
  | e :: rest, k => if e.key = k then some e else Store.find rest k

/-- Whether an entry still exists at query time `now`:
`SET ... EX ttl` at time `s` makes the key exist for `now < s + ttl`. -/
def Entry.liveAt (now : Int) (e : Entry) : Bool :=
  match e.expAt with
  | none => true
  | some x => decide (now < x)

/-- Redis `GET` at time `now`: the value if the key exists and is not
expired. -/
def Store.getLive (st : Store) (now : Int) (k : RKey) : Option RVal :=
  match Store.find st k with
  | some e => if Entry.liveAt now e then some e.val else none
  | none => none

/-- Redis `EXISTS` at time `now`. -/
def Store.existsLive (st : Store) (now : Int) (k : RKey) : Bool :=
  (Store.getLive st now k).isSome

/-- Redis `SET` (unconditional): the new binding shadows any old one. -/
def Store.setE (st : Store) (k : RKey) (v : RVal) (expAt : Option Int) : Store :=
  Entry.mk k v expAt :: st

/-- Redis `DEL`. -/
def Store.del (st : Store) (k : RKey) : Store :=
  st.filter (fun e => decide (e.key ≠ k))

/-- `RedisHelper.set(key, value, ex=ex, serialize=False)` at time `now`.
Python truthiness of `ex`: `None` and `0` fall through to a plain `SET`
with no TTL; a negative `ex` reaches `SETEX`, which Redis rejects, so the
swallowed exception leaves the store unchanged (the helper's boolean
return is discarded by every caller in `TokenHelper`). -/
def rhSet (st : Store) (now : Int) (k : RKey) (v : RVal) (ex : Option Int) : Store :=
  match ex with
  | none => Store.setE st k v none
  | some e =>
      if e = 0 then Store.setE st k v none
      else if 0 < e then Store.setE st k v (some (now + e))
      else st

/-- `RedisHelper.get(key, deserialize=False)` at time `now`. -/
def rhGet (st : Store) (now : Int) (k : RKey) : Option RVal :=
  Store.getLive st now k

/-- The `TokenHelper` configuration (`__init__`).  The `redis_helper`
handle is external state, modelled by passing a `Store` to each
operation; `hasRedis` records whether the handle is `None`. -/
structure TokenHelper where
  secretKey : String
  algorithm : String
  accessTokenExpireMinutes : Int
  refreshTokenExpireDays : Int
  hasRedis : Bool
deriving DecidableEq, Repr

/-- `jwt.decode(token, key, algorithms=[alg])` at time `now`.  PyJWT
rejects a wrong key or algorithm and malformed strings; with
`verify_exp=True` it raises `ExpiredSignatureError` iff the integer `exp`
claim is strictly less than the current integer time, and rejects a
non-integer `exp`; a missing `exp` is accepted.  All failure kinds
collapse to `none` (the callers in `TokenHelper` treat every decode
exception identically). -/
def jwtDecode (t : Tok) (key alg : String) (now : Int) (verifyExp : Bool) :
    Option (List (String × JVal)) :=
  match t with
  | Tok.malformed _ => none
  | Tok.signed payload k a =>
      if k = key ∧ a = alg then
        if verifyExp then
          match dictGet payload "exp" with
          | some (JVal.i e) => if e < now then none else some payload
          | some (JVal.s _) => none
          | none => some payload
        else some payload
      else none

/-- The reserved-claim payload built by `TokenHelper.generate_token`
before `user_data` is merged in. -/
def accessPayloadBase (h : TokenHelper) (now : Int) (userId : JVal) :
    List (String × JVal) :=
  [("user_id", userId),
   ("exp", JVal.i (now + h.accessTokenExpireMinutes * 60)),
   ("iat", JVal.i now),
   ("type", JVal.s "access")]

/-- `TokenHelper.generate_token(user_id, user_data)` at time `now`.
Note the source runs `payload.update(user_data)` on the reserved payload,
so caller data overwrites colliding reserved claims; `if user_data:`
skips the update for `None` and for an empty dict. -/
def generate_token (h : TokenHelper) (now : Int) (userId : JVal)
    (userData : Option (List (String × JVal))) : Tok :=
  let payload :=
    match userData with
    | some ud => if ud.isEmpty then accessPayloadBase h now userId
                 else dictUpdate (accessPayloadBase h now userId) ud
    | none => accessPayloadBase h now userId
  Tok.signed payload h.secretKey h.algorithm

/-- `timedelta(days=refresh_token_expire_days)` and the
`expire_seconds = refresh_token_expire_days * 24 * 60 * 60` of the
source, both in seconds. -/
def refreshExpSeconds (h : TokenHelper) : Int :=
  h.refreshTokenExpireDays * 24 * 60 * 60

/-- The payload built by `TokenHelper.generate_refresh_token`. -/
def refreshPayload (h : TokenHelper) (now : Int) (userId : JVal) :
    List (String × JVal) :=
  [("user_id", userId),
   ("exp", JVal.i (now + refreshExpSeconds h)),
   ("iat", JVal.i now),
   ("type", JVal.s "refresh")]

/-- `TokenHelper.generate_refresh_token(user_id)` at time `now`: mints the
refresh token and, when a store is configured, overwrites the registry
entry `refresh_token:{user_id}` with the raw token and
`ex=expire_seconds`. -/
def generate_refresh_token (h : TokenHelper) (st : Store) (now : Int)
    (userId : JVal) : Tok × Store :=
  let token := Tok.signed (refreshPayload h now userId) h.secretKey h.algorithm
  if h.hasRedis then
    (token, rhSet st now (RKey.refreshKey (JVal.pyStr userId)) (RVal.vTok token)
      (some (refreshExpSeconds h)))
  else (token, st)

/-- `TokenHelper._is_token_blacklisted(token)` at time `now`. -/
def is_token_blacklisted (h : TokenHelper) (st : Store) (now : Int)
    (token : Tok) : Bool :=
  if h.hasRedis then Store.existsLive st now (RKey.blacklistKey token)
  else false

/-- `TokenHelper.verify_token(token, token_type)` at time `now`: false if
the store reports the token blacklisted, if decoding fails for any
reason, or if the decoded `type` claim differs from `token_type`. -/
def verify_token (h : TokenHelper) (st : Store) (now : Int) (token : Tok)
    (tokenType : String) : Bool :=
  if h.hasRedis && is_token_blacklisted h st now token then false
  else
    match jwtDecode token h.secretKey h.algorithm now true with
    | none => false
    | some payload => decide (dictGet payload "type" = some (JVal.s tokenType))

/-- `TokenHelper.decode_token(token)` at time `now`. -/
def decode_token (h : TokenHelper) (st : Store) (now : Int) (token : Tok) :
    Option (List (String × JVal)) :=
  if h.hasRedis && is_token_blacklisted h st now token then none
  else jwtDecode token h.secretKey h.algorithm now true

/-- The reserved claim names stripped by `refresh_access_token` before
re-issuing an access token. -/
def reservedKeys : List String := ["user_id", "exp", "iat", "type"]

/-- The dict comprehension
`{k: v for k, v in payload.items() if k not in ["user_id","exp","iat","type"]}`. -/
def stripReserved (d : List (String × JVal)) : List (String × JVal) :=
  d.filter (fun p => !(reservedKeys.contains p.1))

/-- `TokenHelper.refresh_access_token(refresh_token)` at time `now`:
verify as a refresh token, decode, require a truthy `user_id`, require
(only when a store is configured) the registry entry for the subject to
equal the presented token, then re-issue an access token from the
non-reserved claims. -/
def refresh_access_token (h : TokenHelper) (st : Store) (now : Int)
    (refreshToken : Tok) : Option Tok :=
  if !(verify_token h st now refreshToken "refresh") then none
  else
    match decode_token h st now refreshToken with
    | none => none
    | some payload =>
        match dictGet payload "user_id" with
        | none => none
        | some userId =>
            if !(JVal.truthy userId) then none
            else
              let registryOk : Bool :=
                if h.hasRedis then
                  decide (rhGet st now (RKey.refreshKey (JVal.pyStr userId))
                    = some (RVal.vTok refreshToken))
                else true
              if !registryOk then none
              else some (generate_token h now userId (some (stripReserved payload)))

/-- One iteration-bounded pass of `RedisHelper.acquire_lock`'s retry loop.
Each attempt: a raised store exception aborts the whole call with `None`
(`faults` lists which attempts raise); otherwise `SET key identifier NX
EX timeout` succeeds iff the key does not currently exist; a failed
attempt sleeps `retryDelay` before the next one.  Returns the result, the
store, and the number of attempts performed. -/
def acquireAux (key : RKey) (identifier : String) (timeout retryDelay : Int) :
    Nat → List Bool → Store → Int → Option String × Store × Nat
  | 0, _, st, _ => (none, st, 0)
  | n + 1, faults, st, now =>
      if faults.headD false then (none, st, 1)
      else if Store.existsLive st now key then
        let r := acquireAux key identifier timeout retryDelay n faults.tail st
          (now + retryDelay)
        (r.1, r.2.1, r.2.2 + 1)
      else (some identifier,
            Store.setE st key (RVal.vStr identifier) (some (now + timeout)), 1)

/-- `RedisHelper.acquire_lock(lock_name, timeout, retry_times,
retry_delay)` starting at time `now`.  The fresh `uuid4` identifier is
passed in as `identifier`. -/
def acquire_lock (st : Store) (now : Int) (lockName identifier : String)
    (timeout : Int) (retryTimes : Nat) (retryDelay : Int) (faults : List Bool) :
    Option String × Store × Nat :=
  acquireAux (RKey.lockKey lockName) identifier timeout retryDelay retryTimes
    faults st now

/-- `RedisHelper.release_lock(lock_name, identifier)` at time `now`: the
Lua script `if GET(key) == identifier then DEL(key) return 1 else return
0` runs atomically; `fault` models a raised store exception (caught,
returns false with no effect). -/
def release_lock (st : Store) (now : Int) (lockName identifier : String)
    (fault : Bool) : Bool × Store :=
  if fault then (false, st)
  else
    match Store.getLive st now (RKey.lockKey lockName) with
    | some v => if v = RVal.vStr identifier
                then (true, Store.del st (RKey.lockKey lockName))
                else (false, st)
    | none => (false, st)

theorem dictGet_insert_self (d : List (String × JVal)) (k : String) (v : JVal) :
    dictGet (dictInsert d k v) k = some v := by
  induction d with
  | nil => simp [dictInsert, dictGet]
  | cons p rest ih =>
      by_cases hp : p.1 = k
      · simp [dictInsert, hp, dictGet]
      · simp [dictInsert, hp, dictGet, ih]

theorem dictGet_insert_ne (d : List (String × JVal)) (k k' : String) (v : JVal)
    (h : k' ≠ k) : dictGet (dictInsert d k v) k' = dictGet d k' := by
  have hk : k ≠ k' := Ne.symm h
  induction d with
  | nil => simp [dictInsert, dictGet, hk]
  | cons p rest ih =>
      by_cases hp : p.1 = k
      · have hpk' : p.1 ≠ k' := by rw [hp]; exact hk
        simp [dictInsert, hp, dictGet, hk, hpk']
      · by_cases hp' : p.1 = k'
        · simp [dictInsert, hp, dictGet, hp', h]
        · simp [dictInsert, hp, dictGet, hp', ih]

theorem dictGet_update_not_mem (e : List (String × JVal)) (k : String)
    (h : k ∉ e.map Prod.fst) (d : List (String × JVal)) :
    dictGet (dictUpdate d e) k = dictGet d k := by
  induction e generalizing d with
  | nil => rfl
  | cons p rest ih =>
      simp only [List.map_cons, List.mem_cons] at h
      push_neg at h
      calc dictGet (dictUpdate (dictInsert d p.1 p.2) rest) k
          = dictGet (dictInsert d p.1 p.2) k := ih h.2 _
        _ = dictGet d k := dictGet_insert_ne _ _ _ _ h.1

theorem dictGet_update_of_get (e : List (String × JVal)) (k : String) (v : JVal)
    (hnd : (e.map Prod.fst).Nodup) (hget : dictGet e k = some v)
    (d : List (String × JVal)) :
    dictGet (dictUpdate d e) k = some v := by
  induction e generalizing d with
  | nil => simp [dictGet] at hget
  | cons p rest ih =>
      simp only [List.map_cons, List.nodup_cons] at hnd
      by_cases hp : p.1 = k
      · have hv : v = p.2 := by
          rw [dictGet, if_pos hp] at hget
          exact (Option.some.inj hget).symm
        subst hv
        have hnm : k ∉ rest.map Prod.fst := hp ▸ hnd.1
        calc dictGet (dictUpdate (dictInsert d p.1 p.2) rest) k
            = dictGet (dictInsert d p.1 p.2) k := dictGet_update_not_mem _ _ hnm _
          _ = some p.2 := by rw [hp]; exact dictGet_insert_self _ _ _
      · have hget' : dictGet rest k = some v := by
          rw [dictGet, if_neg hp] at hget
          exact hget
        exact ih hnd.2 hget' _

/-- The payload of `generate_token h now uid (some ud)` is the reserved
base updated by `ud` (the `if user_data:` guard is semantically the
update with the empty dict). -/
theorem generate_token_payload (h : TokenHelper) (now : Int) (userId : JVal)
    (ud : List (String × JVal)) :
    Tok.payloadOf (generate_token h now userId (some ud))
      = dictUpdate (accessPayloadBase h now userId) ud := by
  cases ud with
  | nil => rfl
  | cons p rest => rfl

/-! ### Store lemmas -/

theorem find_setE_self (st : Store) (k : RKey) (v : RVal) (x : Option Int) :
    Store.find (Store.setE st k v x) k = some (Entry.mk k v x) := by
  simp [Store.setE, Store.find]

theorem getLive_setE_self (st : Store) (now : Int) (k : RKey) (v : RVal)
    (x : Option Int) :
    Store.getLive (Store.setE st k v x) now k
      = if Entry.liveAt now (Entry.mk k v x) then some v else none := by
  simp [Store.getLive, find_setE_self]

/-! ### Evaluation lemmas for the token operations -/

theorem jwtDecode_ok (p : List (String × JVal)) (key alg : String) (now e : Int)
    (hexp : dictGet p "exp" = some (JVal.i e)) (hne : ¬e < now) :
    jwtDecode (Tok.signed p key alg) key alg now true = some p := by
  simp [jwtDecode, hexp, hne]

theorem jwtDecode_expired (p : List (String × JVal)) (key alg : String)
    (now e : Int) (hexp : dictGet p "exp" = some (JVal.i e)) (hlt : e < now) :
    jwtDecode (Tok.signed p key alg) key alg now true = none := by
  simp [jwtDecode, hexp, hlt]

/-- `verify_token` when the blacklist check is negative. -/
theorem verify_token_not_bl (h : TokenHelper) (st : Store) (now : Int) (t : Tok)
    (ty : String) (hbl : is_token_blacklisted h st now t = false) :
    verify_token h st now t ty
      = match jwtDecode t h.secretKey h.algorithm now true with
        | none => false
        | some payload => decide (dictGet payload "type" = some (JVal.s ty)) := by
  unfold verify_token
  rw [hbl, Bool.and_false, if_neg (by simp)]

/-- `verify_token` on a blacklisted token with a configured store. -/
theorem verify_token_bl (h : TokenHelper) (st : Store) (now : Int) (t : Tok)
    (ty : String) (hR : h.hasRedis = true)
    (hbl : Store.existsLive st now (RKey.blacklistKey t) = true) :
    verify_token h st now t ty = false := by
  unfold verify_token
  rw [show (h.hasRedis && is_token_blacklisted h st now t) = true by
    simp [is_token_blacklisted, hR, hbl]]
  rw [if_pos rfl]

theorem decode_token_not_bl (h : TokenHelper) (st : Store) (now : Int) (t : Tok)
    (hbl : is_token_blacklisted h st now t = false) :
    decode_token h st now t = jwtDecode t h.secretKey h.algorithm now true := by
  unfold decode_token
  rw [hbl, Bool.and_false, if_neg (by simp)]

theorem refresh_none_of_verify_false (h : TokenHelper) (st : Store) (now : Int)
    (t : Tok) (hv : verify_token h st now t "refresh" = false) :
    refresh_access_token h st now t = none := by
  unfold refresh_access_token
  rw [hv]
  rfl

/-- The registry-mismatch path of `refresh_access_token`: everything up to
the registry check passes, but the stored entry differs. -/
theorem refresh_none_of_registry_mismatch (h : TokenHelper) (st : Store)
    (now : Int) (p : List (String × JVal)) (e : Int) (userId : JVal)
    (hR : h.hasRedis = true)
    (hty : dictGet p "type" = some (JVal.s "refresh"))
    (hexp : dictGet p "exp" = some (JVal.i e))
    (huid : dictGet p "user_id" = some userId)
    (hreg : rhGet st now (RKey.refreshKey (JVal.pyStr userId))
      ≠ some (RVal.vTok (Tok.signed p h.secretKey h.algorithm))) :
    refresh_access_token h st now (Tok.signed p h.secretKey h.algorithm) = none := by
  by_cases hbl : is_token_blacklisted h st now
      (Tok.signed p h.secretKey h.algorithm) = true
  · exact refresh_none_of_verify_false h st now _
      (verify_token_bl h st now _ _ hR (by simpa [is_token_blacklisted, hR] using hbl))
  · have hbl' : is_token_blacklisted h st now
        (Tok.signed p h.secretKey h.algorithm) = false := by
      simpa using hbl
    by_cases hlt : e < now
    · exact refresh_none_of_verify_false h st now _ (by
        rw [verify_token_not_bl h st now _ _ hbl',
          jwtDecode_expired p _ _ now e hexp hlt])
    · have hdec : jwtDecode (Tok.signed p h.secretKey h.algorithm) h.secretKey
          h.algorithm now true = some p := jwtDecode_ok p _ _ now e hexp hlt
      have hv : verify_token h st now (Tok.signed p h.secretKey h.algorithm)
          "refresh" = true := by
        rw [verify_token_not_bl h st now _ _ hbl']
        simp only [hdec, hty, decide_eq_true_eq]
      have hdt : decode_token h st now (Tok.signed p h.secretKey h.algorithm)
          = some p := by rw [decode_token_not_bl h st now _ hbl', hdec]
      unfold refresh_access_token
      rw [hv]
      simp only [Bool.not_true, Bool.false_eq_true, if_false, hdt, huid]
      cases htr : JVal.truthy userId with
      | false => simp
      | true => simp [hR, hreg]

theorem generate_refresh_token_fst (h : TokenHelper) (st : Store) (now : Int)
    (userId : JVal) :
    (generate_refresh_token h st now userId).1
      = Tok.signed (refreshPayload h now userId) h.secretKey h.algorithm := by
  unfold generate_refresh_token
  by_cases hR : h.hasRedis <;> simp [hR]

theorem generate_refresh_token_snd (h : TokenHelper) (st : Store) (now : Int)
    (userId : JVal) (hR : h.hasRedis = true) :
    (generate_refresh_token h st now userId).2
      = rhSet st now (RKey.refreshKey (JVal.pyStr userId))
          (RVal.vTok (Tok.signed (refreshPayload h now userId) h.secretKey h.algorithm))
          (some (refreshExpSeconds h)) := by
  unfold generate_refresh_token
  simp [hR]

theorem dictGet_eq_none_of_not_mem (d : List (String × JVal)) (k : String)
    (h : k ∉ d.map Prod.fst) : dictGet d k = none := by
  induction d with
  | nil => rfl
  | cons p rest ih =>
      simp only [List.map_cons, List.mem_cons] at h
      push_neg at h
      rw [dictGet, if_neg (fun hh => h.1 hh.symm), ih h.2]

theorem verify_token_false_of_expired (h : TokenHelper) (st : Store) (now : Int)
    (p : List (String × JVal)) (ty : String) (e : Int)
    (hexp : dictGet p "exp" = some (JVal.i e)) (hlt : e < now) :
    verify_token h st now (Tok.signed p h.secretKey h.algorithm) ty = false := by
  by_cases hb : (h.hasRedis
      && is_token_blacklisted h st now (Tok.signed p h.secretKey h.algorithm)) = true
  · unfold verify_token
    rw [if_pos hb]
  · unfold verify_token
    rw [if_neg hb]
    simp only [jwtDecode_expired p _ _ now e hexp hlt]

theorem jwtDecode_noexp_any_time (t : Tok) (key alg : String) (n m : Int) :
    jwtDecode t key alg n false = jwtDecode t key alg m false := by
  cases t <;> simp [jwtDecode]

theorem refreshPayload_ne_of_time_ne (h : TokenHelper) (userId : JVal)
    (n m : Int) (hne : n ≠ m) :
    refreshPayload h n userId ≠ refreshPayload h m userId := by
  intro heq
  have : JVal.i n = JVal.i m := by
    have h3 := congrArg (fun l => dictGet l "iat") heq
    simpa [refreshPayload, dictGet] using h3
  exact hne (by injection this)

/-! ### Lock lemmas -/

theorem acquireAux_attempts_le (key : RKey) (identifier : String)
    (timeout retryDelay : Int) :
    ∀ (n : Nat) (faults : List Bool) (st : Store) (now : Int),
      (acquireAux key identifier timeout retryDelay n faults st now).2.2 ≤ n := by
  intro n
  induction n with
  | zero => intro faults st now; simp [acquireAux]
  | succ m ih =>
      intro faults st now
      unfold acquireAux
      cases hf : faults.headD false with
      | true =>
          rw [if_pos rfl]
          exact Nat.succ_le_succ (Nat.zero_le m)
      | false =>
          rw [if_neg Bool.false_ne_true]
          cases hex : Store.existsLive st now key with
          | true =>
              rw [if_pos rfl]
              dsimp only
              exact Nat.succ_le_succ (ih faults.tail st (now + retryDelay))
          | false =>
              rw [if_neg Bool.false_ne_true]
              exact Nat.succ_le_succ (Nat.zero_le m)

theorem acquireAux_some (key : RKey) (identifier : String)
    (timeout retryDelay : Int) :
    ∀ (n : Nat) (faults : List Bool) (st : Store) (now : Int) (x : String),
      (acquireAux key identifier timeout retryDelay n faults st now).1 = some x →
      x = identifier ∧
      ∃ j : Nat, j < n ∧
        (acquireAux key identifier timeout retryDelay n faults st now).2.2 = j + 1 ∧
        Store.find (acquireAux key identifier timeout retryDelay n faults st now).2.1 key
          = some (Entry.mk key (RVal.vStr identifier)
              (some (now + (j : Int) * retryDelay + timeout))) := by
  intro n
  induction n with
  | zero => intro faults st now x hx; exact absurd hx (by simp [acquireAux])
  | succ m ih =>
      intro faults st now x hx
      unfold acquireAux at hx ⊢
      cases hf : faults.headD false with
      | true =>
          rw [hf, if_pos rfl] at hx
          exact absurd hx (by simp)
      | false =>
          rw [hf, if_neg Bool.false_ne_true] at hx
          rw [if_neg Bool.false_ne_true]
          cases hex : Store.existsLive st now key with
          | true =>
              rw [hex, if_pos rfl] at hx
              rw [if_pos rfl]
              dsimp only at hx ⊢
              obtain ⟨hxid, j, hj, hcnt, hfind⟩ :=
                ih faults.tail st (now + retryDelay) x hx
              refine ⟨hxid, j + 1, Nat.succ_lt_succ hj, by rw [hcnt], ?_⟩
              rw [hfind]
              simp only [Option.some.injEq, Entry.mk.injEq, true_and]
              push_cast
              ring
          | false =>
              rw [hex, if_neg Bool.false_ne_true] at hx
              rw [if_neg Bool.false_ne_true]
              dsimp only at hx ⊢
              refine ⟨(Option.some.inj hx).symm, 0, Nat.succ_pos m, rfl, ?_⟩
              rw [find_setE_self]
              simp only [Option.some.injEq, Entry.mk.injEq, true_and]
              push_cast
              ring

theorem acquireAux_none_of_held (key : RKey) (identifier : String)
    (timeout retryDelay : Int) :
    ∀ (n : Nat) (faults : List Bool) (st : Store) (now : Int),
      (∀ b ∈ faults, b = false) →
      (∀ j : Nat, j < n →
        Store.existsLive st (now + (j : Int) * retryDelay) key = true) →
      (acquireAux key identifier timeout retryDelay n faults st now).1 = none := by
  intro n
  induction n with
  | zero => intro faults st now _ _; rfl
  | succ m ih =>
      intro faults st now hfa hheld
      unfold acquireAux
      cases hf : faults.headD false with
      | true => rw [if_pos rfl]
      | false =>
          rw [if_neg Bool.false_ne_true]
          have hex : Store.existsLive st now key = true := by
            have hh := hheld 0 (Nat.succ_pos m)
            simpa using hh
          rw [hex, if_pos rfl]
          dsimp only
          apply ih faults.tail st (now + retryDelay)
          · intro b hb
            cases faults with
            | nil => exact absurd hb (by simp)
            | cons c l => exact hfa b (List.mem_cons_of_mem c hb)
          · intro j hj
            have hh := hheld (j + 1) (Nat.succ_lt_succ hj)
            rw [show now + retryDelay + (j : Int) * retryDelay
              = now + (((j : Nat) + 1 : Nat) : Int) * retryDelay by push_cast; ring]
            simpa using hh

theorem headD_eq_getD_zero (l : List Bool) : l.headD false = l.getD 0 false := by
  cases l <;> rfl

theorem tail_getD (l : List Bool) (i : Nat) :
    l.tail.getD i false = l.getD (i + 1) false := by
  cases l <;> rfl

/-- If the store raises at some attempt `j` and every earlier attempt
either raised (it never gets that far) or found the key held, the whole
call returns none: the exception aborts the retry loop from any
iteration. -/
theorem acquireAux_none_of_fault (key : RKey) (identifier : String)
    (timeout retryDelay : Int) :
    ∀ (n : Nat) (faults : List Bool) (st : Store) (now : Int) (j : Nat),
      j < n → faults.getD j false = true →
      (∀ i : Nat, i < j → faults.getD i false = true ∨
        Store.existsLive st (now + (i : Int) * retryDelay) key = true) →
      (acquireAux key identifier timeout retryDelay n faults st now).1 = none := by
  intro n
  induction n with
  | zero => intro faults st now j hj _ _; exact absurd hj (Nat.not_lt_zero j)
  | succ m ih =>
      intro faults st now j hj hfj hpre
      unfold acquireAux
      cases hf : faults.headD false with
      | true => rw [if_pos rfl]
      | false =>
          rw [if_neg Bool.false_ne_true]
          cases j with
          | zero =>
              rw [headD_eq_getD_zero, hfj] at hf
              exact absurd hf (by simp)
          | succ i =>
              have hheld0 : Store.existsLive st now key = true := by
                rcases hpre 0 (Nat.succ_pos i) with h1 | h2
                · rw [headD_eq_getD_zero, h1] at hf
                  exact absurd hf (by simp)
                · simpa using h2
              rw [hheld0, if_pos rfl]
              dsimp only
              apply ih faults.tail st (now + retryDelay) i
                (Nat.lt_of_succ_lt_succ hj)
              · rw [tail_getD]
                exact hfj
              · intro i' hi'
                rcases hpre (i' + 1) (Nat.succ_lt_succ hi') with h1 | h2
                · refine Or.inl ?_
                  rw [tail_getD]
                  exact h1
                · refine Or.inr ?_
                  rw [show now + retryDelay + (i' : Int) * retryDelay
                    = now + (((i' : Nat) + 1 : Nat) : Int) * retryDelay by
                      push_cast; ring]
                  exact h2

/-- Claim C7: for every lock name and every identifier that differs from
the value currently stored under the lock's key (including when the key
is absent, expired, or re-acquired under a different identifier),
`release_lock` returns false and leaves the store untouched; it also
returns false on a store error.  The check and the delete are one atomic
step of `release_lock`. -/
theorem release_lock_denies_nonowner (st : Store) (now : Int)
    (lockName identifier : String) (fault : Bool)
    (h : fault = true ∨
      Store.getLive st now (RKey.lockKey lockName) ≠ some (RVal.vStr identifier)) :
    release_lock st now lockName identifier fault = (false, st) := by
  unfold release_lock
  cases hf : fault with
  | true => rw [if_pos rfl]
  | false =>
      rw [if_neg Bool.false_ne_true]
      have hne : Store.getLive st now (RKey.lockKey lockName)
          ≠ some (RVal.vStr identifier) := by
        rcases h with h1 | h2
        · exact absurd (hf ▸ h1) (by simp)
        · exact h2
      cases hg : Store.getLive st now (RKey.lockKey lockName) with
      | none => rfl
      | some v =>
          dsimp only
          rw [if_neg (show ¬v = RVal.vStr identifier from
            fun hv => hne (by rw [hg, hv]))]

/-- Witness for C7: a live lock held by `"owner"`; releasing with a wrong
identifier returns false and does not delete the record. -/
theorem release_lock_denies_nonowner_w :
    release_lock [Entry.mk (RKey.lockKey "X") (RVal.vStr "owner") (some 10)] 0
      "X" "intruder" false
      = (false, [Entry.mk (RKey.lockKey "X") (RVal.vStr "owner") (some 10)]) :=
  release_lock_denies_nonowner _ 0 "X" "intruder" false (Or.inr (by decide))

/-- Claim C8: `acquire_lock` performs at most `retryTimes` set-if-absent
attempts (so the retry loop terminates); on the first successful attempt
it returns the generated identifier, having written `lock:{lockName}`
with TTL `timeout`; it returns none when every attempt finds the key
held (no store error), and when a store error occurs at any attempt the
exception aborts the loop and it returns none (every earlier attempt
must itself have raised or found the key held, else the call would have
already succeeded). -/
theorem acquire_lock_spec (st : Store) (now : Int) (lockName identifier : String)
    (timeout : Int) (retryTimes : Nat) (retryDelay : Int) (faults : List Bool) :
    (acquire_lock st now lockName identifier timeout retryTimes retryDelay faults).2.2
        ≤ retryTimes
    ∧ (∀ x, (acquire_lock st now lockName identifier timeout retryTimes retryDelay
          faults).1 = some x →
        x = identifier ∧
        ∃ j : Nat, j < retryTimes ∧
          (acquire_lock st now lockName identifier timeout retryTimes retryDelay
            faults).2.2 = j + 1 ∧
          Store.find (acquire_lock st now lockName identifier timeout retryTimes
              retryDelay faults).2.1 (RKey.lockKey lockName)
            = some (Entry.mk (RKey.lockKey lockName) (RVal.vStr identifier)
                (some (now + (j : Int) * retryDelay + timeout))))
    ∧ ((∀ b ∈ faults, b = false) →
        (∀ j : Nat, j < retryTimes →
          Store.existsLive st (now + (j : Int) * retryDelay)
            (RKey.lockKey lockName) = true) →
        (acquire_lock st now lockName identifier timeout retryTimes retryDelay
          faults).1 = none)
    ∧ (∀ j : Nat, j < retryTimes → faults.getD j false = true →
        (∀ i : Nat, i < j → faults.getD i false = true ∨
          Store.existsLive st (now + (i : Int) * retryDelay)
            (RKey.lockKey lockName) = true) →
        (acquire_lock st now lockName identifier timeout retryTimes retryDelay
          faults).1 = none)
    ∧ RKey.render (RKey.lockKey lockName) = "lock:" ++ lockName :=
  ⟨acquireAux_attempts_le _ _ _ _ retryTimes faults st now,
    fun x hx => acquireAux_some _ _ _ _ retryTimes faults st now x hx,
    fun hfa hheld => acquireAux_none_of_held _ _ _ _ retryTimes faults st now
      hfa hheld,
    fun j hj hfj hpre => acquireAux_none_of_fault _ _ _ _ retryTimes faults st
      now j hj hfj hpre, rfl⟩

/-- Witness for C8: on an empty store the first attempt wins, writing
`lock:X` with TTL `10`; with the lock held at the first attempt and a
store error raised at the second, the call returns none. -/
theorem acquire_lock_spec_w :
    ("me" = "me" ∧
      ∃ j : Nat, j < 2 ∧
        (acquire_lock [] 0 "X" "me" 10 2 1 []).2.2 = j + 1 ∧
        Store.find (acquire_lock [] 0 "X" "me" 10 2 1 []).2.1 (RKey.lockKey "X")
          = some (Entry.mk (RKey.lockKey "X") (RVal.vStr "me")
              (some (0 + (j : Int) * 1 + 10))))
    ∧ (acquire_lock [Entry.mk (RKey.lockKey "X") (RVal.vStr "owner") (some 100)]
        0 "X" "me" 10 3 1 [false, true]).1 = none :=
  ⟨(acquire_lock_spec [] 0 "X" "me" 10 2 1 []).2.1 "me" (by decide),
   (acquire_lock_spec [Entry.mk (RKey.lockKey "X") (RVal.vStr "owner") (some 100)]
      0 "X" "me" 10 3 1 [false, true]).2.2.2.1 1 (by decide) (by decide)
      (fun i hi => by
        have hi0 : i = 0 := by omega
        subst hi0
        exact Or.inr (by decide))⟩

/-- Counterexample to C2 as stated: minting an access token with the
colliding extra claim `type = "refresh"` does not keep the reserved value
`"access"` — `payload.update(user_data)` lets the caller's value win. -/
theorem generate_token_reserved_overridden_cx :
    dictGet (Tok.payloadOf (generate_token (TokenHelper.mk "k" "HS256" 30 7 false)
      0 (JVal.s "u") (some [("type", JVal.s "refresh")]))) "type"
      ≠ some (JVal.s "access") := by decide

/-- Claim C2 (amended): `generate_token` merges `extraClaims` with
`payload.update`, so on a key collision the caller's value wins (the
reserved value is kept only for keys the caller does not supply); the
un-amended claim said reserved names win. -/
theorem generate_token_caller_wins (h : TokenHelper) (now : Int)
    (subject : String) (ud : List (String × JVal))
    (hnd : (ud.map Prod.fst).Nodup) :
    (∀ k v, dictGet ud k = some v →
      dictGet (Tok.payloadOf (generate_token h now (JVal.s subject) (some ud))) k
        = some v)
    ∧ (∀ k, k ∉ ud.map Prod.fst →
      dictGet (Tok.payloadOf (generate_token h now (JVal.s subject) (some ud))) k
        = dictGet (accessPayloadBase h now (JVal.s subject)) k) := by
  constructor
  · intro k v hget
    rw [generate_token_payload]
    exact dictGet_update_of_get ud k v hnd hget _
  · intro k hk
    rw [generate_token_payload]
    exact dictGet_update_not_mem ud k hk _

/-- Witness for C2 (amended): the colliding caller claim `type` ends up in
the payload, while the untouched reserved claim `user_id` survives. -/
theorem generate_token_caller_wins_w :
    (dictGet (Tok.payloadOf (generate_token (TokenHelper.mk "k" "HS256" 30 7 false)
        0 (JVal.s "u") (some [("type", JVal.s "refresh")]))) "type"
      = some (JVal.s "refresh"))
    ∧ (dictGet (Tok.payloadOf (generate_token (TokenHelper.mk "k" "HS256" 30 7 false)
        0 (JVal.s "u") (some [("type", JVal.s "refresh")]))) "user_id"
      = dictGet (accessPayloadBase (TokenHelper.mk "k" "HS256" 30 7 false) 0
          (JVal.s "u")) "user_id") :=
  ⟨(generate_token_caller_wins (TokenHelper.mk "k" "HS256" 30 7 false) 0 "u"
      [("type", JVal.s "refresh")] (by decide)).1 "type" (JVal.s "refresh")
      (by decide),
   (generate_token_caller_wins (TokenHelper.mk "k" "HS256" 30 7 false) 0 "u"
      [("type", JVal.s "refresh")] (by decide)).2 "user_id" (by decide)⟩

/-- Counterexample to C3 as stated: two issuances for the same subject at
the same integer second (PyJWT serialises `iat`/`exp` at whole-second
precision) produce the identical token string, so the "first" token is
still the registered one and `refresh` on it succeeds instead of
returning none. -/
theorem refresh_superseded_same_second_cx :
    ((generate_refresh_token (TokenHelper.mk "k" "HS256" 30 7 true) [] 0
        (JVal.s "u1")).1
      = (generate_refresh_token (TokenHelper.mk "k" "HS256" 30 7 true)
          (generate_refresh_token (TokenHelper.mk "k" "HS256" 30 7 true) [] 0
            (JVal.s "u1")).2 0 (JVal.s "u1")).1)
    ∧ (refresh_access_token (TokenHelper.mk "k" "HS256" 30 7 true)
        (generate_refresh_token (TokenHelper.mk "k" "HS256" 30 7 true)
          (generate_refresh_token (TokenHelper.mk "k" "HS256" 30 7 true) [] 0
            (JVal.s "u1")).2 0 (JVal.s "u1")).2
        1
        (generate_refresh_token (TokenHelper.mk "k" "HS256" 30 7 true) [] 0
          (JVal.s "u1")).1).isSome = true := by decide

/-- Claim C3 (amended): with a store configured, issuing two refresh
tokens for the same subject at strictly increasing times (so the two
token strings differ) invalidates the first: the registry entry holds
only the second token, and `refresh` of the first at any later time
returns none — the un-amended claim also covered two issuances within
the same second, where the tokens coincide and the first still
refreshes. -/
theorem refresh_rejects_superseded (h : TokenHelper) (st0 : Store)
    (subject : String) (now1 now2 now3 : Int)
    (hR : h.hasRedis = true) (h12 : now1 < now2) (h23 : now2 ≤ now3) :
    refresh_access_token h
        (generate_refresh_token h
          (generate_refresh_token h st0 now1 (JVal.s subject)).2 now2
          (JVal.s subject)).2
        now3 (generate_refresh_token h st0 now1 (JVal.s subject)).1 = none
    ∧ (0 < h.refreshTokenExpireDays →
        Store.find (generate_refresh_token h
            (generate_refresh_token h st0 now1 (JVal.s subject)).2 now2
            (JVal.s subject)).2 (RKey.refreshKey subject)
          = some (Entry.mk (RKey.refreshKey subject)
              (RVal.vTok (generate_refresh_token h
                (generate_refresh_token h st0 now1 (JVal.s subject)).2 now2
                (JVal.s subject)).1)
              (some (now2 + refreshExpSeconds h)))) := by
  have ht1 : (generate_refresh_token h st0 now1 (JVal.s subject)).1
      = Tok.signed (refreshPayload h now1 (JVal.s subject)) h.secretKey h.algorithm :=
    generate_refresh_token_fst h st0 now1 (JVal.s subject)
  have ht2 : (generate_refresh_token h
        (generate_refresh_token h st0 now1 (JVal.s subject)).2 now2 (JVal.s subject)).1
      = Tok.signed (refreshPayload h now2 (JVal.s subject)) h.secretKey h.algorithm :=
    generate_refresh_token_fst h _ now2 (JVal.s subject)
  have hst2 : (generate_refresh_token h
        (generate_refresh_token h st0 now1 (JVal.s subject)).2 now2 (JVal.s subject)).2
      = rhSet (generate_refresh_token h st0 now1 (JVal.s subject)).2 now2
          (RKey.refreshKey subject)
          (RVal.vTok (Tok.signed (refreshPayload h now2 (JVal.s subject))
            h.secretKey h.algorithm))
          (some (refreshExpSeconds h)) :=
    generate_refresh_token_snd h _ now2 (JVal.s subject) hR
  have hTne : Tok.signed (refreshPayload h now2 (JVal.s subject)) h.secretKey
        h.algorithm
      ≠ Tok.signed (refreshPayload h now1 (JVal.s subject)) h.secretKey
        h.algorithm := by
    intro heq
    injection heq with hpay _ _
    exact refreshPayload_ne_of_time_ne h (JVal.s subject) now2 now1
      (by omega) hpay
  constructor
  · rw [ht1]
    by_cases hpos : 0 < refreshExpSeconds h
    · have hset : rhSet (generate_refresh_token h st0 now1 (JVal.s subject)).2 now2
          (RKey.refreshKey subject)
          (RVal.vTok (Tok.signed (refreshPayload h now2 (JVal.s subject))
            h.secretKey h.algorithm))
          (some (refreshExpSeconds h))
          = Store.setE (generate_refresh_token h st0 now1 (JVal.s subject)).2
              (RKey.refreshKey subject)
              (RVal.vTok (Tok.signed (refreshPayload h now2 (JVal.s subject))
                h.secretKey h.algorithm))
              (some (now2 + refreshExpSeconds h)) := by
        simp only [rhSet]
        rw [if_neg (by omega : ¬refreshExpSeconds h = 0), if_pos hpos]
      apply refresh_none_of_registry_mismatch h _ now3
        (refreshPayload h now1 (JVal.s subject)) (now1 + refreshExpSeconds h)
        (JVal.s subject) hR rfl rfl rfl
      rw [show JVal.pyStr (JVal.s subject) = subject from rfl, hst2, hset]
      unfold rhGet
      rw [getLive_setE_self]
      cases hlive : Entry.liveAt now3 (Entry.mk (RKey.refreshKey subject)
          (RVal.vTok (Tok.signed (refreshPayload h now2 (JVal.s subject))
            h.secretKey h.algorithm))
          (some (now2 + refreshExpSeconds h))) with
      | true =>
          rw [if_pos rfl]
          intro hc
          exact hTne (RVal.vTok.inj (Option.some.inj hc))
      | false =>
          rw [if_neg Bool.false_ne_true]
          simp
    · apply refresh_none_of_verify_false
      exact verify_token_false_of_expired h _ now3
        (refreshPayload h now1 (JVal.s subject)) "refresh"
        (now1 + refreshExpSeconds h) rfl (by omega)
  · intro hd
    have hpos : 0 < refreshExpSeconds h := by
      unfold refreshExpSeconds
      omega
    rw [ht2, hst2]
    simp only [rhSet]
    rw [if_neg (by omega : ¬refreshExpSeconds h = 0), if_pos hpos]
    exact find_setE_self _ _ _ _

/-- Witness for C3 (amended): subject `"u1"`, issuances at times 0 and 5,
refresh of the first token attempted at time 6 fails, and the registry
holds the second token with the full refresh TTL. -/
theorem refresh_rejects_superseded_w :
    refresh_access_token (TokenHelper.mk "k" "HS256" 30 7 true)
        (generate_refresh_token (TokenHelper.mk "k" "HS256" 30 7 true)
          (generate_refresh_token (TokenHelper.mk "k" "HS256" 30 7 true) [] 0
            (JVal.s "u1")).2 5 (JVal.s "u1")).2
        6 (generate_refresh_token (TokenHelper.mk "k" "HS256" 30 7 true) [] 0
          (JVal.s "u1")).1 = none
    ∧ Store.find (generate_refresh_token (TokenHelper.mk "k" "HS256" 30 7 true)
          (generate_refresh_token (TokenHelper.mk "k" "HS256" 30 7 true) [] 0
            (JVal.s "u1")).2 5 (JVal.s "u1")).2 (RKey.refreshKey "u1")
        = some (Entry.mk (RKey.refreshKey "u1")
            (RVal.vTok (generate_refresh_token (TokenHelper.mk "k" "HS256" 30 7 true)
              (generate_refresh_token (TokenHelper.mk "k" "HS256" 30 7 true) [] 0
                (JVal.s "u1")).2 5 (JVal.s "u1")).1)
            (some (5 + refreshExpSeconds (TokenHelper.mk "k" "HS256" 30 7 true)))) :=
  ⟨(refresh_rejects_superseded (TokenHelper.mk "k" "HS256" 30 7 true) [] "u1"
      0 5 6 rfl (by decide) (by decide)).1,
   (refresh_rejects_superseded (TokenHelper.mk "k" "HS256" 30 7 true) [] "u1"
      0 5 6 rfl (by decide) (by decide)).2 (by decide)⟩

end Taskify
